import Mathlib

/-!
Verification of the ESP32 BLE provisioning firmware
(`src/esp32-reference-code.cpp`) against its natural-language
specification.  The firmware's command channel is embedded shallowly:

* the Framer / Dispatcher (`MyCharacteristicCallbacks::onWrite`,
  lines 58-108) becomes `onWrite`, acting on the accumulation buffer
  `command_buffer` modelled as a `List Char` and producing the observable
  events of one callback invocation;
* the provisioning state machine (`connectToWifi`, lines 180-224) becomes
  `connectToWifi`, parameterised by a stub `wifiStatus` for the network
  primitive's status polling, producing a trace of `WifiEvent`s;
* response emission (`sendBleResponse`, lines 160-173) becomes
  `sendBleResponse`, producing the calls into the outbound characteristic.

The JSON codec (ArduinoJson) and the Arduino `String` primitives are
external collaborators of the firmware; only the operations the firmware
uses are modelled (`trimChars` for `String::trim`, `endsWithNewline` for
`String::endsWith("\n")`, `cstrTrunc` for reading a byte sequence through
`c_str()`, and `jsonDecodeFlat` for `deserializeJson` restricted to the
flat string-field objects the protocol uses).
-/

namespace Esp32

/-- Characters accepted by `isspace`, which Arduino `String::trim` strips
from both ends (space, tab, newline, vertical tab, form feed, carriage
return). -/
def isSpaceB (c : Char) : Bool :=
  c = ' ' || c = '\t' || c = '\n' || c = '\x0b' || c = '\x0c' || c = '\r'

/-- Arduino `String::trim()`: remove leading and trailing `isspace`
characters. -/
def trimChars (s : List Char) : List Char :=
  ((s.dropWhile isSpaceB).reverse.dropWhile isSpaceB).reverse

/-- Arduino `String::endsWith("\n")`: the last character is a newline. -/
def endsWithNewline (s : List Char) : Bool :=
  s.getLast? = some '\n'

/-- Reading a byte sequence through `c_str()` (line 66:
`command_buffer += rxValue.c_str()`): a C string stops at the first NUL
byte, so only the prefix before the first `'\x00'` is appended. -/
def cstrTrunc (f : List Char) : List Char :=
  f.takeWhile (fun c => c ≠ '\x00')

/-- `String(const char*)` in Arduino: constructing a `String` from a null
`const char*` yields the empty string (`WString.cpp` null-checks the
pointer), so an absent JSON field used in a message reads as `""`. -/
def cstr (s : Option String) : String := s.getD ""

/-- The view of a deserialized JSON document the firmware takes: the three
fields it reads through `doc["type"]`, `doc["ssid"]`, `doc["password"]`
as `const char*`, each `none` when the field is absent (or not a string),
in which case ArduinoJson yields a null pointer. -/
structure Doc where
  type : Option String
  ssid : Option String
  password : Option String
deriving DecidableEq

/-- A response object under construction: the `type`, `status` and
`message` members assigned by the firmware (`none` = never assigned). -/
structure Response where
  type : Option String
  status : Option String
  message : Option String
deriving DecidableEq

/-- The error response built at lines 79-82: only `type` and `message`
are assigned; there is no `status` member and no trailing period. -/
def invalidJsonResp : Response :=
  { type := some "error", status := none, message := some "Invalid JSON format" }

/-- The unknown-command response built at lines 97-100: only `type` and
`message` are assigned. -/
def unknownCmdResp : Response :=
  { type := some "error", status := none, message := some "Unknown command type" }

/-- The record handed to the decoder: the accumulated buffer after
`command_buffer.trim()` (line 71). -/
def recordOf (buf : List Char) : String := String.mk (trimChars buf)

/-- Observable events of one `onWrite` invocation. -/
inductive Event where
  /-- `deserializeJson(doc, command_buffer)` invoked on this record. -/
  | decodeCall (record : String)
  /-- `sendBleResponse` invoked with this response object. -/
  | emit (r : Response)
  /-- `connectToWifi(ssid, password)` invoked with these arguments. -/
  | wifi (ssid password : Option String)
deriving DecidableEq

/-- The records handed to the decoder within an event trace. -/
def decodeCalls (evs : List Event) : List String :=
  evs.filterMap fun e =>
    match e with
    | Event.decodeCall r => some r
    | _ => none

/-- Lines 69-106: once the buffer ends with a newline, trim it and decode;
on decode failure emit the invalid-JSON response and clear the buffer
(lines 76-86); on success read `doc["type"]` — a null pointer there is fed
to `strcmp` (line 90), undefined behavior, modelled as `none`; otherwise
dispatch on the type and clear the buffer (line 105). -/
def processBuf (decode : String → Option Doc) (buf : List Char) :
    Option (List Char × List Event) :=
  if endsWithNewline buf then
    let record := recordOf buf
    match decode record with
    | none => some ([], [Event.decodeCall record, Event.emit invalidJsonResp])
    | some doc =>
      match doc.type with
      | none => none
      | some t =>
        if t = "wifi_config" then
          some ([], [Event.decodeCall record, Event.wifi doc.ssid doc.password])
        else
          some ([], [Event.decodeCall record, Event.emit unknownCmdResp])
  else
    some (buf, [])

/-- `MyCharacteristicCallbacks::onWrite` (lines 58-108): given the current
`command_buffer` and the received fragment, return the new buffer and the
events of this invocation (`none` models reaching the null-pointer
`strcmp`, which has no defined result).  An empty fragment is ignored
(line 61); otherwise the fragment is appended through `c_str()` (line 66)
and the buffer is processed when it ends with a newline. -/
def onWrite (decode : String → Option Doc) (buffer fragment : List Char) :
    Option (List Char × List Event) :=
  if fragment = [] then some (buffer, [])
  else processBuf decode (buffer ++ cstrTrunc fragment)

/-- Feed a sequence of fragments through `onWrite`, accumulating events;
stops with `none` if any invocation reaches undefined behavior. -/
def feedMany (decode : String → Option Doc) :
    List Char × List Event → List (List Char) → Option (List Char × List Event)
  | st, [] => some st
  | st, f :: fs =>
    match onWrite decode st.1 f with
    | none => none
    | some (buf, evs) => feedMany decode (buf, st.2 ++ evs) fs

/-- Observable events of one `connectToWifi` invocation. -/
inductive WifiEvent where
  /-- `sendBleResponse` invoked with this response object. -/
  | emit (r : Response)
  /-- `WiFi.disconnect()` invoked. -/
  | disconnect
  /-- `delay(ms)` invoked. -/
  | delay (ms : Nat)
  /-- `WiFi.begin(ssid, password)` invoked with these pointers. -/
  | begin (ssid password : Option String)
deriving DecidableEq

/-- The info response assigned at lines 186-190 (note `String(ssid)` reads
a null pointer as the empty string). -/
def infoResp (ssid : Option String) : Response :=
  { type := some "wifi_config_response", status := some "info",
    message := some ("Attempting to connect to " ++ cstr ssid ++ "...") }

/-- The success response assigned at lines 213-214. -/
def successResp (ssid : Option String) : Response :=
  { type := some "wifi_config_response", status := some "success",
    message := some ("Successfully connected to " ++ cstr ssid) }

/-- The timeout response assigned at lines 220-221. -/
def errorResp (ssid : Option String) : Response :=
  { type := some "wifi_config_response", status := some "error",
    message := some ("Failed to connect to " ++ cstr ssid ++ ". Check credentials.") }

/-- The polling loop at lines 200-206:
`while (WiFi.status() != WL_CONNECTED && attempt < 30) { delay(500); attempt++; }`.
`wifiStatus n` is the result of the `(n+1)`-st `WiFi.status()` call of the
invocation; `call` is the index of the next status call; `remaining` is
`30 - attempt`.  The guard evaluates `WiFi.status()` first even when
`attempt` has reached 30 (left-to-right `&&`), hence `call + 1` in the
base case.  Returns the delay events performed by the loop and the index
of the status call made by the `if` at line 208. -/
def connectLoop (wifiStatus : Nat → Bool) : Nat → Nat → List WifiEvent × Nat
  | call, 0 => ([], call + 1)
  | call, remaining + 1 =>
    if wifiStatus call then ([], call + 1)
    else
      let r := connectLoop wifiStatus (call + 1) remaining
      (WifiEvent.delay 500 :: r.1, r.2)

/-- `connectToWifi` (lines 180-224): emit the info response, disconnect
any prior association, `delay(100)`, start the join, poll up to the
30-attempt ceiling, then either emit the success response or disconnect
and emit the timeout response.  The 100ms delay event is kept distinct
from the 500ms poll delays. -/
def connectToWifi (ssid password : Option String) (wifiStatus : Nat → Bool) :
    List WifiEvent :=
  let r := connectLoop wifiStatus 0 30
  WifiEvent.emit (infoResp ssid) :: WifiEvent.disconnect :: WifiEvent.delay 100 ::
    WifiEvent.begin ssid password ::
    (r.1 ++
      (if wifiStatus r.2 then [WifiEvent.emit (successResp ssid)]
       else [WifiEvent.disconnect, WifiEvent.emit (errorResp ssid)]))

/-- The responses handed to `sendBleResponse` within a provisioning trace,
in order. -/
def emittedWifi (evs : List WifiEvent) : List Response :=
  evs.filterMap fun e =>
    match e with
    | WifiEvent.emit r => some r
    | _ => none

/-- Calls into the outbound (TX) characteristic. -/
inductive TxEvent where
  /-- `pTxCharacteristic->setValue(s)`. -/
  | setValue (s : String)
  /-- `pTxCharacteristic->notify()`. -/
  | notify
deriving DecidableEq

/-- One serialized member `"key":"value"` (all response members the
firmware assigns are strings, and none contains characters that JSON
escapes). -/
def serializeField (key : String) (v : Option String) : List String :=
  match v with
  | none => []
  | some s => ["\"" ++ key ++ "\":\"" ++ s ++ "\""]

/-- ArduinoJson `serializeJson` on the firmware's response objects:
members in assignment order (`type`, `status`, `message`), absent members
skipped. -/
def serializeJson (r : Response) : String :=
  "\x7b" ++
    String.intercalate ","
      (serializeField "type" r.type ++ serializeField "status" r.status ++
        serializeField "message" r.message) ++ "\x7d"

/-- `sendBleResponse` (lines 160-173): when a central is attached,
serialize the response, append the newline delimiter, and hand the whole
string to the characteristic (`setValue` then `notify`); when detached,
perform no characteristic call at all (only a diagnostic log). -/
def sendBleResponse (deviceConnected : Bool) (response : Response) :
    List TxEvent :=
  if deviceConnected then
    let responseString := serializeJson response ++ "\n"
    [TxEvent.setValue responseString, TxEvent.notify]
  else []

/-- Skip `isspace` characters (JSON inter-token whitespace). -/
def skipWs : List Char → List Char
  | [] => []
  | c :: rest => if isSpaceB c then skipWs rest else c :: rest

/-- Scan a JSON string body up to the closing quote (the protocol's
records use no escape sequences; the modelled subset has none). -/
def parseStringBody : List Char → List Char → Option (String × List Char)
  | [], _ => none
  | c :: rest, acc =>
    if c = '"' then some (String.mk acc.reverse, rest)
    else parseStringBody rest (c :: acc)

/-- Scan a JSON string starting at its opening quote. -/
def parseString (l : List Char) : Option (String × List Char) :=
  match l with
  | '"' :: rest => parseStringBody rest []
  | _ => none

/-- Scan the members of a flat JSON object after the opening brace:
`"key" : "value"` pairs separated by commas, ending at the closing
brace. -/
def parsePairs (fuel : Nat) (l : List Char) (acc : List (String × String)) :
    Option (List (String × String) × List Char) :=
  match fuel with
  | 0 => none
  | fuel + 1 =>
    match parseString (skipWs l) with
    | none => none
    | some (k, rest) =>
      match skipWs rest with
      | ':' :: rest2 =>
        match parseString (skipWs rest2) with
        | none => none
        | some (v, rest3) =>
          match skipWs rest3 with
          | ',' :: rest4 => parsePairs fuel rest4 ((k, v) :: acc)
          | '\x7d' :: rest4 => some (((k, v) :: acc).reverse, rest4)
          | _ => none
      | _ => none

/-- Parse a complete flat JSON object (string keys, string values) with
nothing but whitespace around it; any other input fails.  In particular
the empty record fails, as `deserializeJson` reports `EmptyInput`. -/
def parseFlatObject (l : List Char) : Option (List (String × String)) :=
  match skipWs l with
  | '\x7b' :: rest =>
    match skipWs rest with
    | '\x7d' :: rest2 => if skipWs rest2 = [] then some [] else none
    | _ =>
      match parsePairs l.length rest [] with
      | some (ps, rest2) => if skipWs rest2 = [] then some ps else none
      | none => none
  | _ => none

/-- `doc["k"]` as `const char*`: the value of the member named `k`, or a
null pointer when absent. -/
def lookupField (ps : List (String × String)) (k : String) : Option String :=
  (ps.find? (fun p => p.1 = k)).map Prod.snd

/-- Modelled from the spec: the external JSON codec (ArduinoJson
`deserializeJson` plus the three `const char*` member reads), an
out-of-scope trusted collaborator, modelled on the flat string-field
records the protocol uses; empty and malformed input fail to decode. -/
def jsonDecodeFlat (s : String) : Option Doc :=
  (parseFlatObject s.data).map fun ps =>
    { type := lookupField ps "type", ssid := lookupField ps "ssid",
      password := lookupField ps "password" }

/-! Helper lemmas about the embedding. -/

lemma cstrTrunc_eq_self : ∀ {f : List Char}, '\x00' ∉ f → cstrTrunc f = f := by
  intro f h
  induction f with
  | nil => rfl
  | cons c rest ih =>
    simp only [List.mem_cons, not_or] at h
    simp only [cstrTrunc, List.takeWhile_cons] at *
    rw [if_pos (by simpa using (Ne.symm h.1)), ih h.2]

lemma onWrite_ne (decode : String → Option Doc) {f : List Char} (hf : f ≠ [])
    (b : List Char) :
    onWrite decode b f = processBuf decode (b ++ cstrTrunc f) := by
  simp [onWrite, hf]

lemma processBuf_no_nl {decode : String → Option Doc} {buf : List Char}
    (h : endsWithNewline buf = false) : processBuf decode buf = some (buf, []) := by
  simp [processBuf, h]

lemma processBuf_nl_fail {decode : String → Option Doc} {buf : List Char}
    (h : endsWithNewline buf = true) (hd : decode (recordOf buf) = none) :
    processBuf decode buf =
      some ([], [Event.decodeCall (recordOf buf), Event.emit invalidJsonResp]) := by
  simp [processBuf, h, hd]

lemma processBuf_nl_doc {decode : String → Option Doc} {buf : List Char} {doc : Doc}
    (h : endsWithNewline buf = true) (hd : decode (recordOf buf) = some doc) :
    processBuf decode buf =
      match doc.type with
      | none => none
      | some t =>
        if t = "wifi_config" then
          some ([], [Event.decodeCall (recordOf buf), Event.wifi doc.ssid doc.password])
        else
          some ([], [Event.decodeCall (recordOf buf), Event.emit unknownCmdResp]) := by
  simp [processBuf, h, hd]

lemma connectLoop_never {wifiStatus : Nat → Bool} (h : ∀ n, wifiStatus n = false) :
    ∀ (remaining call : Nat), connectLoop wifiStatus call remaining =
      (List.replicate remaining (WifiEvent.delay 500), call + remaining + 1) := by
  intro remaining
  induction remaining with
  | zero => intro call; simp [connectLoop]
  | succ n ih =>
    intro call
    rw [connectLoop, h call]
    simp only [Bool.false_eq_true, if_false, ih (call + 1), List.replicate_succ,
      Prod.mk.injEq, List.cons.injEq, true_and]
    omega

lemma connectLoop_joined {wifiStatus : Nat → Bool}
    (hmono : ∀ j, wifiStatus j = true → wifiStatus (j + 1) = true) :
    ∀ (remaining call k : Nat), k < remaining → wifiStatus (call + k) = true →
      wifiStatus (connectLoop wifiStatus call remaining).2 = true := by
  intro remaining
  induction remaining with
  | zero => intro call k hk _; omega
  | succ n ih =>
    intro call k hk hjoin
    by_cases h : wifiStatus call
    · rw [connectLoop, h]
      exact hmono call h
    · rw [connectLoop, Bool.eq_false_iff.mpr h]
      simp only [Bool.false_eq_true, if_false]
      cases k with
      | zero => rw [Nat.add_zero] at hjoin; exact absurd hjoin h
      | succ k' =>
        exact ih (call + 1) k' (by omega)
          (by rw [show call + 1 + k' = call + (k' + 1) by omega]; exact hjoin)

lemma emittedWifi_nil : emittedWifi [] = [] := rfl

lemma emittedWifi_cons_emit (r : Response) (l : List WifiEvent) :
    emittedWifi (WifiEvent.emit r :: l) = r :: emittedWifi l := by
  simp [emittedWifi]

lemma emittedWifi_cons_disconnect (l : List WifiEvent) :
    emittedWifi (WifiEvent.disconnect :: l) = emittedWifi l := by
  simp [emittedWifi]

lemma emittedWifi_cons_delay (ms : Nat) (l : List WifiEvent) :
    emittedWifi (WifiEvent.delay ms :: l) = emittedWifi l := by
  simp [emittedWifi]

lemma emittedWifi_cons_begin (s p : Option String) (l : List WifiEvent) :
    emittedWifi (WifiEvent.begin s p :: l) = emittedWifi l := by
  simp [emittedWifi]

lemma emittedWifi_append (l₁ l₂ : List WifiEvent) :
    emittedWifi (l₁ ++ l₂) = emittedWifi l₁ ++ emittedWifi l₂ := by
  simp [emittedWifi]

lemma connectLoop_all_delay (wifiStatus : Nat → Bool) :
    ∀ (remaining call : Nat), emittedWifi (connectLoop wifiStatus call remaining).1 = [] := by
  intro remaining
  induction remaining with
  | zero => intro call; rfl
  | succ n ih =>
    intro call
    by_cases h : wifiStatus call
    · rw [connectLoop, h]; rfl
    · rw [connectLoop, Bool.eq_false_iff.mpr h]
      simp only [Bool.false_eq_true, if_false]
      rw [emittedWifi_cons_delay]
      exact ih (call + 1)

lemma emittedWifi_connectToWifi (ssid password : Option String)
    (wifiStatus : Nat → Bool) :
    emittedWifi (connectToWifi ssid password wifiStatus) =
      infoResp ssid ::
        (if wifiStatus (connectLoop wifiStatus 0 30).2 then [successResp ssid]
         else [errorResp ssid]) := by
  unfold connectToWifi
  rw [emittedWifi_cons_emit, emittedWifi_cons_disconnect, emittedWifi_cons_delay,
    emittedWifi_cons_begin, emittedWifi_append, connectLoop_all_delay]
  by_cases h : wifiStatus (connectLoop wifiStatus 0 30).2
  · rw [if_pos h, if_pos h, emittedWifi_cons_emit, emittedWifi_nil]
    rfl
  · rw [if_neg h, if_neg h, emittedWifi_cons_disconnect, emittedWifi_cons_emit,
      emittedWifi_nil]
    rfl

/-! Claim theorems about the provisioning state machine. -/

/-- C2: when the network primitive never reports joined, `connectToWifi`
emits the info response, tears down any prior association, starts the
join, performs exactly 30 polls at the fixed 500-time-unit interval
(15,000 time-units in total), then explicitly disconnects the half-joined
association and emits the error response
`{type: "wifi_config_response", status: "error",
message: "Failed to connect to <ssid>. Check credentials."}`. -/
theorem provision_timeout_trace (ssid password : Option String)
    (wifiStatus : Nat → Bool) (h : ∀ n, wifiStatus n = false) :
    connectToWifi ssid password wifiStatus =
      WifiEvent.emit (infoResp ssid) :: WifiEvent.disconnect :: WifiEvent.delay 100 ::
        WifiEvent.begin ssid password ::
        (List.replicate 30 (WifiEvent.delay 500) ++
          [WifiEvent.disconnect, WifiEvent.emit (errorResp ssid)]) := by
  unfold connectToWifi
  rw [connectLoop_never h 30 0]
  simp [h]

/-- Witness for C2: the concrete spec scenario `provision("Home","pass")`
against a stub that never reports joined. -/
theorem provision_timeout_trace_witness :
    connectToWifi (some "Home") (some "pass") (fun _ => false) =
      WifiEvent.emit (infoResp (some "Home")) :: WifiEvent.disconnect ::
        WifiEvent.delay 100 :: WifiEvent.begin (some "Home") (some "pass") ::
        (List.replicate 30 (WifiEvent.delay 500) ++
          [WifiEvent.disconnect, WifiEvent.emit (errorResp (some "Home"))]) :=
  provision_timeout_trace (some "Home") (some "pass") (fun _ => false) (fun _ => rfl)

/-- C3: when the network primitive reports joined at some poll before the
30-poll ceiling (and stays joined), exactly two responses are emitted, in
order: the info response and then the success response. -/
theorem provision_success_responses (ssid password : Option String)
    (wifiStatus : Nat → Bool) (k : Nat) (hk : k < 30)
    (hjoin : wifiStatus k = true)
    (hmono : ∀ j, wifiStatus j = true → wifiStatus (j + 1) = true) :
    emittedWifi (connectToWifi ssid password wifiStatus) =
      [infoResp ssid, successResp ssid] := by
  have h2 : wifiStatus (connectLoop wifiStatus 0 30).2 = true :=
    connectLoop_joined hmono 30 0 k hk (by simpa using hjoin)
  rw [emittedWifi_connectToWifi, if_pos h2]

/-- Witness for C3: the concrete spec scenario of a stub that reports
joined on the first poll. -/
theorem provision_success_responses_witness :
    emittedWifi (connectToWifi (some "Home") (some "pass") (fun _ => true)) =
      [infoResp (some "Home"), successResp (some "Home")] :=
  provision_success_responses (some "Home") (some "pass") (fun _ => true) 0
    (by decide) rfl (fun _ _ => rfl)

lemma decodeCalls_of_processed (decode : String → Option Doc)
    {b f st : List Char} {evs : List Event} (hf : f ≠ [])
    (hn : endsWithNewline (b ++ cstrTrunc f) = true)
    (h : onWrite decode b f = some (st, evs)) :
    decodeCalls evs = [recordOf (b ++ cstrTrunc f)] ∧ st = [] := by
  rw [onWrite_ne decode hf b] at h
  cases hd : decode (recordOf (b ++ cstrTrunc f)) with
  | none =>
    rw [processBuf_nl_fail hn hd] at h
    simp only [Option.some.injEq, Prod.mk.injEq] at h
    rw [← h.1, ← h.2]
    exact ⟨by simp [decodeCalls], rfl⟩
  | some doc =>
    rw [processBuf_nl_doc hn hd] at h
    cases htype : doc.type with
    | none => rw [htype] at h; cases h
    | some t =>
      rw [htype] at h
      simp only at h
      split at h <;>
      · simp only [Option.some.injEq, Prod.mk.injEq] at h
        rw [← h.1, ← h.2]
        exact ⟨by simp [decodeCalls], rfl⟩

lemma onWrite_join (decode : String → Option Doc) {b f b' f' : List Char}
    (hf : f ≠ []) (hf' : f' ≠ []) (h0 : '\x00' ∉ f) (h0' : '\x00' ∉ f')
    (heq : b ++ f = b' ++ f') : onWrite decode b f = onWrite decode b' f' := by
  rw [onWrite_ne decode hf b, onWrite_ne decode hf' b',
    cstrTrunc_eq_self h0, cstrTrunc_eq_self h0', heq]

lemma feed_bytes (decode : String → Option Doc) :
    ∀ (l b : List Char) (evs : List Event), l ≠ [] → '\x00' ∉ l →
      '\n' ∉ (b ++ l).dropLast →
      feedMany decode (b, evs) (l.map fun c => [c]) =
        (onWrite decode b l).map fun p => (p.1, evs ++ p.2) := by
  intro l
  induction l with
  | nil => intro b evs hne; exact absurd rfl hne
  | cons c rest ih =>
    intro b evs _ h0 hnl
    simp only [List.mem_cons, not_or] at h0
    have hc0 : c ≠ '\x00' := fun hc => h0.1 (hc ▸ rfl)
    rcases eq_or_ne rest [] with hrest | hrest
    · subst hrest
      simp only [List.map_cons, List.map_nil, feedMany]
      cases hw : onWrite decode b [c] with
      | none => simp
      | some p => cases p with | mk buf evs2 => simp [feedMany]
    · have hlist : (b ++ [c]) ++ rest = b ++ c :: rest := by simp
      have hcn : c ≠ '\n' := by
        intro hc
        apply hnl
        rw [List.dropLast_append_of_ne_nil b (by simp)]
        cases rest with
        | nil => exact absurd rfl hrest
        | cons d ds => simp [hc]
      have hw1 : onWrite decode b [c] = some (b ++ [c], []) := by
        rw [onWrite_ne decode (by simp) b,
          cstrTrunc_eq_self (by simpa using (Ne.symm hc0))]
        apply processBuf_no_nl
        simp [endsWithNewline, List.getLast?_concat, hcn]
      simp only [List.map_cons, feedMany, hw1]
      rw [ih (b ++ [c]) (evs ++ []) hrest (by simpa using h0.2)
        (by rw [hlist]; exact hnl)]
      rw [onWrite_join decode hrest (by simp)
        (by simpa using h0.2)
        (by simp only [List.mem_cons, not_or]; exact ⟨fun hx => hc0 hx.symm, by simpa using h0.2⟩)
        hlist]
      simp

/-! Claim theorems about the Framer and Dispatcher. -/

/-- C4 (amended): for every record that fails structured decode, the
response handed to `sendBleResponse` is `{type: "error",
message: "Invalid JSON format"}` — it has no `status` member and no
trailing period — and the record is never queued for reprocessing: the
buffer is cleared and the only events are the decode call and the single
emission. -/
theorem decode_failure_response (decode : String → Option Doc) (b f : List Char)
    (hf : f ≠ []) (hn : endsWithNewline (b ++ cstrTrunc f) = true)
    (hd : decode (recordOf (b ++ cstrTrunc f)) = none) :
    onWrite decode b f =
      some ([], [Event.decodeCall (recordOf (b ++ cstrTrunc f)),
        Event.emit invalidJsonResp]) ∧
    invalidJsonResp.type = some "error" ∧ invalidJsonResp.status = none ∧
    invalidJsonResp.message = some "Invalid JSON format" := by
  refine ⟨?_, rfl, rfl, rfl⟩
  rw [onWrite_ne decode hf b, processBuf_nl_fail hn hd]

/-- Witness for C4: the spec's malformed record example. -/
theorem decode_failure_response_witness :
    onWrite jsonDecodeFlat [] ("\x7bnot json\n".data) =
      some ([], [Event.decodeCall
        (recordOf (([] : List Char) ++ cstrTrunc ("\x7bnot json\n".data))),
        Event.emit invalidJsonResp]) ∧
    invalidJsonResp.type = some "error" ∧ invalidJsonResp.status = none ∧
    invalidJsonResp.message = some "Invalid JSON format" :=
  decode_failure_response jsonDecodeFlat [] _ (by decide) (by decide) (by decide)

/-- Counterexample for C4 as stated: at the concrete malformed record
`"{not json\n"` the response carries no `status` member at all, and its
message is `"Invalid JSON format"`, which is not the claimed
`"Invalid JSON format."`. -/
theorem invalid_json_response_shape_cex :
    onWrite jsonDecodeFlat [] ("\x7bnot json\n".data) =
      some ([], [Event.decodeCall "\x7bnot json", Event.emit invalidJsonResp]) ∧
    invalidJsonResp.status = none ∧
    invalidJsonResp.message = some "Invalid JSON format" ∧
    "Invalid JSON format" ≠ "Invalid JSON format." := by
  decide

/-- C5 (amended): a successfully decoded record whose `type` is present
but not `"wifi_config"` gets the response `{type: "error",
message: "Unknown command type"}` (no `status` member, no trailing
period, and not the claimed type `"command_response"`); a record whose
`type` is absent does not produce a response at all: the code feeds the
null `type` pointer to `strcmp`, undefined behavior, modelled as no
defined result. -/
theorem unknown_or_absent_type_dispatch (decode : String → Option Doc)
    (b f : List Char) (doc : Doc) (t : String) (hf : f ≠ [])
    (hn : endsWithNewline (b ++ cstrTrunc f) = true)
    (hd : decode (recordOf (b ++ cstrTrunc f)) = some doc) :
    (doc.type = some t → t ≠ "wifi_config" →
      onWrite decode b f =
        some ([], [Event.decodeCall (recordOf (b ++ cstrTrunc f)),
          Event.emit unknownCmdResp]) ∧
      unknownCmdResp =
        { type := some "error", status := none,
          message := some "Unknown command type" }) ∧
    (doc.type = none → onWrite decode b f = none) := by
  constructor
  · intro ht hne
    refine ⟨?_, rfl⟩
    rw [onWrite_ne decode hf b, processBuf_nl_doc hn hd, ht]
    simp [hne]
  · intro ht
    rw [onWrite_ne decode hf b, processBuf_nl_doc hn hd, ht]

/-- Witness for C5: the spec's `{"type":"ping"}` example. -/
theorem unknown_or_absent_type_dispatch_witness :
    ((Doc.mk (some "ping") none none).type = some "ping" →
      "ping" ≠ "wifi_config" →
      onWrite jsonDecodeFlat [] ("\x7b\"type\":\"ping\"\x7d\n".data) =
        some ([], [Event.decodeCall
          (recordOf (([] : List Char) ++ cstrTrunc ("\x7b\"type\":\"ping\"\x7d\n".data))),
          Event.emit unknownCmdResp]) ∧
      unknownCmdResp =
        { type := some "error", status := none,
          message := some "Unknown command type" }) ∧
    ((Doc.mk (some "ping") none none).type = none →
      onWrite jsonDecodeFlat [] ("\x7b\"type\":\"ping\"\x7d\n".data) = none) :=
  unknown_or_absent_type_dispatch jsonDecodeFlat [] _ (Doc.mk (some "ping") none none)
    "ping" (by decide) (by decide) (by decide)

/-- Counterexample for C5 as stated: at the concrete record
`{"type":"ping"}` the response's type is `"error"`, not the claimed
`"command_response"`; it has no `status` member; and its message lacks
the claimed trailing period. -/
theorem unknown_type_response_shape_cex :
    onWrite jsonDecodeFlat [] ("\x7b\"type\":\"ping\"\x7d\n".data) =
      some ([], [Event.decodeCall "\x7b\"type\":\"ping\"\x7d",
        Event.emit unknownCmdResp]) ∧
    unknownCmdResp.type = some "error" ∧
    some "error" ≠ some "command_response" ∧
    unknownCmdResp.status = none ∧
    unknownCmdResp.message = some "Unknown command type" ∧
    "Unknown command type" ≠ "Unknown command type." := by
  decide

/-- C6: a decoded `wifi_config` command with a missing `ssid` and/or
`password` member still invokes the provisioning state machine
synchronously with the extracted (null) values, and a null credential
behaves exactly like the empty string as far as the emitted responses are
concerned (`String(NULL)` constructs `""`). -/
theorem wifi_config_missing_fields (decode : String → Option Doc)
    (b f : List Char) (doc : Doc) (password2 : Option String)
    (wifiStatus : Nat → Bool) (hf : f ≠ [])
    (hn : endsWithNewline (b ++ cstrTrunc f) = true)
    (hd : decode (recordOf (b ++ cstrTrunc f)) = some doc)
    (ht : doc.type = some "wifi_config") :
    onWrite decode b f =
      some ([], [Event.decodeCall (recordOf (b ++ cstrTrunc f)),
        Event.wifi doc.ssid doc.password]) ∧
    emittedWifi (connectToWifi none password2 wifiStatus) =
      emittedWifi (connectToWifi (some "") password2 wifiStatus) := by
  constructor
  · rw [onWrite_ne decode hf b, processBuf_nl_doc hn hd, ht]
    simp
  · rw [emittedWifi_connectToWifi, emittedWifi_connectToWifi]
    simp only [infoResp, successResp, errorResp, cstr, Option.getD_none, Option.getD_some]

/-- Witness for C6: a `wifi_config` record with no `ssid` member. -/
theorem wifi_config_missing_fields_witness :
    onWrite jsonDecodeFlat []
        ("\x7b\"type\":\"wifi_config\",\"password\":\"abc\"\x7d\n".data) =
      some ([], [Event.decodeCall
        (recordOf (([] : List Char) ++
          cstrTrunc ("\x7b\"type\":\"wifi_config\",\"password\":\"abc\"\x7d\n".data))),
        Event.wifi (Doc.mk (some "wifi_config") none (some "abc")).ssid
          (Doc.mk (some "wifi_config") none (some "abc")).password]) ∧
    emittedWifi (connectToWifi none (some "abc") (fun _ => true)) =
      emittedWifi (connectToWifi (some "") (some "abc") (fun _ => true)) :=
  wifi_config_missing_fields jsonDecodeFlat [] _
    (Doc.mk (some "wifi_config") none (some "abc")) (some "abc") (fun _ => true)
    (by decide) (by decide) (by decide) (by decide)

/-- C7: while detached, `sendBleResponse` performs zero calls into the
outbound characteristic for every response, and surfaces no error (its
result is the empty call list); while attached, the response is
serialized, terminated with a newline, and handed over as a single unit
(one `setValue` of the whole string, followed by its `notify`). -/
theorem emission_connection_gate (response : Response) :
    sendBleResponse false response = [] ∧
    sendBleResponse true response =
      [TxEvent.setValue (serializeJson response ++ "\n"), TxEvent.notify] :=
  ⟨rfl, rfl⟩

/-- C8 (amended): a bare newline yields the empty trimmed record as-is,
and because the codec rejects empty input (`deserializeJson` reports
`EmptyInput`), the Dispatcher handles it as a decode error — it emits the
invalid-JSON response, not the unknown-command response. -/
theorem bare_newline_dispatch (decode : String → Option Doc)
    (hd : decode "" = none) :
    onWrite decode [] ['\n'] =
      some ([], [Event.decodeCall "", Event.emit invalidJsonResp]) ∧
    invalidJsonResp ≠ unknownCmdResp := by
  have hbuf : ([] : List Char) ++ cstrTrunc ['\n'] = ['\n'] := by decide
  have hrec : recordOf ['\n'] = "" := by decide
  refine ⟨?_, by decide⟩
  rw [onWrite_ne decode (by decide) [], hbuf,
    processBuf_nl_fail (by decide) (by rw [hrec]; exact hd), hrec]

/-- Witness for C8: instantiated with the modelled codec. -/
theorem bare_newline_dispatch_witness :
    onWrite jsonDecodeFlat [] ['\n'] =
      some ([], [Event.decodeCall "", Event.emit invalidJsonResp]) ∧
    invalidJsonResp ≠ unknownCmdResp :=
  bare_newline_dispatch jsonDecodeFlat (by decide)

/-- Counterexample for C8 as stated: on the bare-newline stream the
emitted response is the invalid-JSON (decode error) response, not the
unknown-command response the claim requires. -/
theorem bare_newline_decode_error_cex :
    onWrite jsonDecodeFlat [] ['\n'] =
      some ([], [Event.decodeCall "", Event.emit invalidJsonResp]) ∧
    invalidJsonResp.message = some "Invalid JSON format" ∧
    invalidJsonResp ≠ unknownCmdResp := by
  decide

/-- C9: whenever a record is extracted and handed off (the appended
buffer ends with the terminator) and the invocation completes, the
accumulation buffer is reset to empty — on the decode-failure path
(line 84) just as on the decode-success paths (line 105). -/
theorem buffer_reset_after_record (decode : String → Option Doc)
    (b f st : List Char) (evs : List Event) (hf : f ≠ [])
    (hn : endsWithNewline (b ++ cstrTrunc f) = true)
    (h : onWrite decode b f = some (st, evs)) : st = [] :=
  (decodeCalls_of_processed decode hf hn h).2

/-- Witness for C9: the buffer is empty after the malformed record
`"\x7bnot json\n"` is processed. -/
theorem buffer_reset_after_record_witness : ([] : List Char) = [] :=
  buffer_reset_after_record jsonDecodeFlat [] ("\x7bnot json\n".data) []
    [Event.decodeCall "\x7bnot json", Event.emit invalidJsonResp]
    (by decide) (by decide) (by decide)

/-- C10: a record is handed to the decoder exactly when the received
fragment is nonempty and, after appending it (through `c_str()`), the
newline is the final byte of the accumulation buffer; in that case the
entire trimmed buffer — interior newlines included — is decoded as one
record; otherwise nothing at all is processed on that call and the buffer
just grows. -/
theorem process_only_on_terminal_newline (decode : String → Option Doc)
    (b f st : List Char) (evs : List Event)
    (h : onWrite decode b f = some (st, evs)) :
    (decodeCalls evs ≠ [] ↔ (f ≠ [] ∧ endsWithNewline (b ++ cstrTrunc f) = true)) ∧
    (f ≠ [] → endsWithNewline (b ++ cstrTrunc f) = true →
      decodeCalls evs = [recordOf (b ++ cstrTrunc f)]) ∧
    ((f = [] ∨ endsWithNewline (b ++ cstrTrunc f) = false) →
      evs = [] ∧ st = b ++ cstrTrunc f) := by
  by_cases hf : f = []
  · subst hf
    have hb : onWrite decode b [] = some (b, []) := by simp [onWrite]
    rw [hb] at h
    simp only [Option.some.injEq, Prod.mk.injEq] at h
    refine ⟨?_, fun hne _ => absurd rfl hne, fun _ => ?_⟩
    · rw [← h.2]
      simp [decodeCalls]
    · rw [← h.1, ← h.2]
      exact ⟨rfl, by simp [cstrTrunc]⟩
  · by_cases hn : endsWithNewline (b ++ cstrTrunc f) = true
    · obtain ⟨hcalls, _⟩ := decodeCalls_of_processed decode hf hn h
      refine ⟨?_, fun _ _ => hcalls, fun hcontra => ?_⟩
      · rw [hcalls]
        simp [hf, hn]
      · rcases hcontra with hc | hc
        · exact absurd hc hf
        · rw [hn] at hc; cases hc
    · rw [onWrite_ne decode hf b,
        processBuf_no_nl (Bool.eq_false_iff.mpr hn)] at h
      simp only [Option.some.injEq, Prod.mk.injEq] at h
      refine ⟨?_, fun _ hn2 => absurd hn2 hn, fun _ => ⟨h.2.symm, h.1.symm⟩⟩
      rw [← h.2]
      simp only [decodeCalls, List.filterMap_nil, ne_eq, not_true_eq_false,
        false_iff, not_and]
      intro _ hn2
      exact hn hn2

/-- Witness for C10: the coalesced fragment `"a\nb"` (terminator followed
by further bytes) is not processed; the full fragment is retained. -/
theorem process_only_on_terminal_newline_witness :
    (decodeCalls [] ≠ [] ↔
      ((['a', '\n', 'b'] : List Char) ≠ [] ∧
        endsWithNewline (([] : List Char) ++ cstrTrunc ['a', '\n', 'b']) = true)) ∧
    ((['a', '\n', 'b'] : List Char) ≠ [] →
      endsWithNewline (([] : List Char) ++ cstrTrunc ['a', '\n', 'b']) = true →
      decodeCalls [] = [recordOf (([] : List Char) ++ cstrTrunc ['a', '\n', 'b'])]) ∧
    ((['a', '\n', 'b'] : List Char) = [] ∨
        endsWithNewline (([] : List Char) ++ cstrTrunc ['a', '\n', 'b']) = false →
      ([] : List Event) = [] ∧
        (['a', '\n', 'b'] : List Char) = [] ++ cstrTrunc ['a', '\n', 'b']) :=
  process_only_on_terminal_newline jsonDecodeFlat [] ['a', '\n', 'b']
    ['a', '\n', 'b'] [] (by decide)

/-- C1 (amended): the Framer does not split at the first terminator; it
processes only once the whole accumulated buffer ends with the
terminator, and then decodes the entire trimmed buffer as one Command
Record.  Fragment-split invariance holds in this form: for every valid
command record (a NUL-free byte sequence whose only newline is its final
byte), feeding it one byte at a time produces exactly the same outcome —
same events, same final buffer — as feeding it whole, and exactly one
Command Record, the whole trimmed record, is handed to the decoder. -/
theorem frame_fragmentation_invariance (decode : String → Option Doc)
    (r st : List Char) (evs : List Event)
    (h1 : endsWithNewline r = true) (h2 : '\n' ∉ r.dropLast) (h0 : '\x00' ∉ r)
    (h : onWrite decode [] r = some (st, evs)) :
    feedMany decode ([], []) (r.map fun c => [c]) = onWrite decode [] r ∧
    decodeCalls evs = [recordOf r] := by
  have hne : r ≠ [] := by
    intro hr
    rw [hr] at h1
    simp [endsWithNewline] at h1
  constructor
  · rw [feed_bytes decode r [] [] hne h0 (by simpa using h2)]
    cases hw : onWrite decode [] r with
    | none => simp
    | some p => simp
  · have hn : endsWithNewline (([] : List Char) ++ cstrTrunc r) = true := by
      rw [cstrTrunc_eq_self h0]
      simpa using h1
    have := (decodeCalls_of_processed decode hne hn h).1
    rwa [cstrTrunc_eq_self h0, List.nil_append] at this

/-- Witness for C1: the record `{"type":"x"}` terminated by a newline,
fed byte-at-a-time versus whole. -/
theorem frame_fragmentation_invariance_witness :
    feedMany jsonDecodeFlat ([], [])
        (("\x7b\"type\":\"x\"\x7d\n".data).map fun c => [c]) =
      onWrite jsonDecodeFlat [] ("\x7b\"type\":\"x\"\x7d\n".data) ∧
    decodeCalls [Event.decodeCall "\x7b\"type\":\"x\"\x7d",
        Event.emit unknownCmdResp] =
      [recordOf ("\x7b\"type\":\"x\"\x7d\n".data)] :=
  frame_fragmentation_invariance jsonDecodeFlat ("\x7b\"type\":\"x\"\x7d\n".data)
    [] [Event.decodeCall "\x7b\"type\":\"x\"\x7d", Event.emit unknownCmdResp]
    (by decide) (by decide) (by decide) (by decide)

/-- Counterexample for C1 as stated: fed the fragment `"a\nb"`, which
contains a terminator followed by further bytes, the claim requires the
Framer to split at the first terminator, yield the prefix `"a"` as a
Command Record, and retain `['b']` as the new buffer; instead the code
yields no record at all (no decode call is made) and retains the full
buffer `['a', '\n', 'b']`. -/
theorem frame_no_split_at_interior_newline :
    onWrite jsonDecodeFlat [] ['a', '\n', 'b'] =
      some (['a', '\n', 'b'], []) ∧
    Event.decodeCall "a" ∉ ([] : List Event) ∧
    (['a', '\n', 'b'] : List Char) ≠ ['b'] := by
  decide

end Esp32
